import Mathlib

/-!
Verification development for the TemperatureDisplay acquisition pipeline
(src/main.py).  The source is a PyQt application; the core modelled here is:

  * the line protocol parser embedded in `DataAcquirer.data_acquire_loop`
    (marker scan via str.find, fixed slice `[i+2 : i+9]`, Python `float`),
  * one cycle of the acquisition loop (open/read/parse/emit/write/sleep,
    with the `except Exception` back-off handler),
  * the loop itself driven by the externally mutated `measuring` flag,
  * the bounded history buffer of `MainWindow.update_chart`,
  * the standard-deviation aggregate (`statistics.stdev` guarded by
    `len(self.plot_y) > 2`),
  * the toggle control `MainWindow.acquire_data`,
  * the log record written by `f.write(...)` each accepted sample.

Lines are modelled as `List Char` (the string the code manipulates after
`str(...)`), numeric values as `ℚ`.
-/

/-- Reject reasons of the line parser: the line has no marker character,
or the extracted field failed the numeric parse (in the source the latter
is a `ValueError` raised by `float`). -/
inductive RejectReason where
  | NoMarker : RejectReason
  | MalformedNumber : RejectReason
deriving DecidableEq

/-- Position of the first occurrence of the marker character in the line;
embeds Python `string_sent.find ('T')` (`none` when `'T' in string_sent`
is false). -/
def markerIndex : List Char → Option Nat
  | [] => none
  | c :: cs => if c = 'T' then some 0 else (markerIndex cs).map (fun n => n + 1)

/-- Digit string to natural number, as the integer part of Python float
parsing accumulates digits left to right. -/
def natOfDigits (ds : List Char) : Nat :=
  ds.foldl (fun a c => 10 * a + (c.toNat - 48)) 0

/-- Unsigned decimal parse: digits, optionally a single point and further
digits, at least one digit in total.  Models Python `float` on the plain
decimal fields the device protocol produces (no exponent, infinity, nan,
underscore or whitespace forms, which never occur in the claims). -/
def parseUnsigned (s : List Char) : Option ℚ :=
  match s.dropWhile Char.isDigit with
  | [] =>
      if (s.takeWhile Char.isDigit).isEmpty then none
      else some ((natOfDigits (s.takeWhile Char.isDigit) : ℚ))
  | '.' :: frac =>
      if frac.all Char.isDigit &&
          !((s.takeWhile Char.isDigit).isEmpty && frac.isEmpty) then
        some ((natOfDigits (s.takeWhile Char.isDigit) : ℚ) +
          (natOfDigits frac : ℚ) / (10 : ℚ) ^ frac.length)
      else none
  | _ => none

/-- Signed decimal parse, embedding Python `float` on the extracted field. -/
def parseFloat : List Char → Option ℚ
  | '+' :: rest => parseUnsigned rest
  | '-' :: rest => (parseUnsigned rest).map (fun q => -q)
  | s => parseUnsigned s

/-- The slice `string_sent [t_index + 2 : t_index + 9]` of the source:
Python slicing clamps at the end of the string, so the field may hold
fewer than 7 characters, or none. -/
def extractField (s : List Char) (i : Nat) : List Char :=
  (s.drop (i + 2)).take 7

/-- The line parser woven into `data_acquire_loop`: scan for the marker
(`'T' in string_sent` / `find`), slice the fixed-width field, numeric
parse.  A failed `float` raises, surfacing here as `MalformedNumber`. -/
def parseLine (s : List Char) : Except RejectReason ℚ :=
  match markerIndex s with
  | none => Except.error RejectReason.NoMarker
  | some i =>
      match parseFloat (extractField s i) with
      | none => Except.error RejectReason.MalformedNumber
      | some v => Except.ok v

/-- Outcome of one `readline` call: a line, or an I/O exception raised by
the serial device. -/
inductive ReadResult where
  | line : List Char → ReadResult
  | ioError : ReadResult
deriving DecidableEq

/-- Observable events of one iteration of `data_acquire_loop`: the
per-cycle `open (self.file_path, "a")`, the signal emission, the file
write, the 0.25 s inter-cycle sleep, the 10 s exception back-off sleep,
and at loop exit the `f.close ()` and `finished.emit ()`. -/
inductive Event where
  | fileOpen : Event
  | emit : ℚ → Event
  | write : ℚ → Event
  | sleepShort : Event
  | sleepLong : Event
  | fileClose : Event
  | finished : Event
deriving DecidableEq

/-- One iteration of the while-body of `data_acquire_loop`, as the list of
events it performs in order.  The body opens the log file, reads a line;
a read exception or a `ValueError` from `float` lands in the
`except Exception` handler (10 s sleep); an accepted sample is emitted,
then written, then the 0.25 s sleep runs; a marker-free line only sleeps
0.25 s. -/
def cycle (r : ReadResult) : List Event :=
  Event.fileOpen ::
    match r with
    | ReadResult.ioError => [Event.sleepLong]
    | ReadResult.line s =>
        match parseLine s with
        | Except.ok v => [Event.emit v, Event.write v, Event.sleepShort]
        | Except.error RejectReason.NoMarker => [Event.sleepShort]
        | Except.error RejectReason.MalformedNumber => [Event.sleepLong]

/-- The acquisition loop driven by a finite environment trace: each step
supplies the value of the externally mutated `measuring` flag as checked
at the top of the `while`, and the outcome of the device read for that
iteration.  Returns the events performed together with `true` when the
loop reached its exit (file closed, `finished` emitted) within the trace. -/
def data_acquire_loop : List (Bool × ReadResult) → List Event × Bool
  | [] => ([], false)
  | (m, r) :: rest =>
      if m then
        ((cycle r) ++ (data_acquire_loop rest).1, (data_acquire_loop rest).2)
      else ([Event.fileClose, Event.finished], true)

/-- Checks that every emitted value was written earlier in the event list:
the formalisation of the spec's write-precedes-emit invariant. -/
def writesPrecedeEmitsAux : List ℚ → List Event → Bool
  | _, [] => true
  | ws, Event.emit v :: rest =>
      decide (v ∈ ws) && writesPrecedeEmitsAux ws rest
  | ws, Event.write v :: rest => writesPrecedeEmitsAux (v :: ws) rest
  | ws, _ :: rest => writesPrecedeEmitsAux ws rest

/-- Entry point of the write-precedes-emit check (no writes seen yet). -/
def writesPrecedeEmits (evs : List Event) : Bool :=
  writesPrecedeEmitsAux [] evs

/-- One call of `MainWindow.update_chart` on the history buffer: when the
list already holds 4000 points, `pop (0)` removes the oldest before the
new point is appended (`plot_x` and `plot_y` are updated in lockstep, so
a single list stands for both). -/
def update_chart (buf : List ℚ) (x : ℚ) : List ℚ :=
  if buf.length = 4000 then buf.tail ++ [x] else buf ++ [x]

/-- The history buffer contents after a sequence of pushes starting from
the empty buffer of `MainWindow.__init__`. -/
def hist (xs : List ℚ) : List ℚ :=
  xs.foldl update_chart []

/-- The Bessel-corrected sample variance computed by `statistics.stdev`
(whose result is its square root): sum of squared deviations from the
mean, divided by n - 1. -/
def sampleVariance (ys : List ℚ) : ℚ :=
  (ys.map (fun y => (y - ys.sum / (ys.length : ℚ)) ^ 2)).sum /
    ((ys.length : ℚ) - 1)

/-- The standard-deviation aggregate of `update_chart`: the label is
updated only under `len (self.plot_y) > 2`; we record the square of the
displayed value (the display applies `sqrt` and rounds to 4 places). -/
def stdev_report (ys : List ℚ) : Option ℚ :=
  if 2 < ys.length then some (sampleVariance ys) else none

/-- The UI state consulted by `MainWindow.acquire_data`: the `measuring`
flag, whether a serial port is open (`self.ser`), and the folder path
text. -/
structure UiState where
  measuring : Bool
  serOpen : Bool
  folderPath : List Char
deriving DecidableEq

/-- Outcome of one press of the acquire control. -/
inductive AcquireOutcome where
  | started : AcquireOutcome
  | noSerial : AcquireOutcome
  | noFolder : AcquireOutcome
  | stopped : AcquireOutcome
deriving DecidableEq

/-- `MainWindow.acquire_data`: when not measuring, start acquisition if a
serial connection exists and the folder path is non-empty (otherwise the
precondition failures are only printed); when already measuring, the same
control stops acquisition, clears the loop flag and closes the port via
`toggle_port`. -/
def acquire_data (st : UiState) : UiState × AcquireOutcome :=
  if st.measuring = false then
    if st.serOpen then
      if 0 < st.folderPath.length then
        ({ st with measuring := true }, AcquireOutcome.started)
      else (st, AcquireOutcome.noFolder)
    else (st, AcquireOutcome.noSerial)
  else
    ({ st with measuring := false, serOpen := false }, AcquireOutcome.stopped)

/-- Two zero-padded decimal digits, as strftime renders the `%d`, `%m`,
`%H`, `%M`, `%S` fields of `time.gmtime ()` (all below 100). -/
def pad2 (n : Nat) : List Char :=
  [Nat.digitChar (n / 10 % 10), Nat.digitChar (n % 10)]

/-- Four decimal digits, as strftime renders `%Y` for gmtime years
(1970 ≤ year < 10000). -/
def pad4 (n : Nat) : List Char :=
  [Nat.digitChar (n / 1000 % 10), Nat.digitChar (n / 100 % 10),
    Nat.digitChar (n / 10 % 10), Nat.digitChar (n % 10)]

/-- The broken-down UTC time returned by `time.gmtime ()`. -/
structure GmTime where
  day : Nat
  month : Nat
  year : Nat
  hour : Nat
  minute : Nat
  second : Nat
deriving DecidableEq

/-- The wall-clock string of the source, embedding
`time.strftime` applied to the format with day, month, year, a space,
hour, minute, second and the literal UTC offset suffix, on `gmtime`
fields. -/
def strftime_log (t : GmTime) : List Char :=
  pad2 t.day ++ '/' :: (pad2 t.month ++ '/' :: (pad4 t.year ++
    ' ' :: (pad2 t.hour ++ ':' :: (pad2 t.minute ++ ':' :: (pad2 t.second ++
      [' ', '+', '0', '0', '0', '0'])))))

/-- Decimal digits of a natural number, most significant first; the fuel
argument (always sufficient at `n + 1`) bounds the recursion. -/
def natDigitsAux : Nat → Nat → List Char
  | 0, _ => []
  | fuel + 1, n =>
      if n < 10 then [Nat.digitChar n]
      else natDigitsAux fuel (n / 10) ++ [Nat.digitChar (n % 10)]

/-- Decimal digits of a natural number. -/
def natDigits (n : Nat) : List Char :=
  natDigitsAux (n + 1) n

/-- Digits after the decimal point of `num / den` (with `num < den`),
produced by long division until the remainder vanishes or fuel runs out;
exact for the terminating decimals the pipeline produces. -/
def fracDigitsAux : Nat → Nat → Nat → List Char
  | 0, _, _ => []
  | fuel + 1, num, den =>
      if num = 0 then []
      else Nat.digitChar (num * 10 / den) :: fracDigitsAux fuel (num * 10 % den) den

/-- The decimal rendering of a value as Python's f-string prints a float:
optional sign, integer digits, a point, and fractional digits (a single
zero when the value is integral, as in 5.0). -/
def pyFloatRepr (v : ℚ) : List Char :=
  (if v < 0 then ['-'] else []) ++
    natDigits (v.num.natAbs / v.den) ++
    '.' :: (if v.num.natAbs % v.den = 0 then ['0']
      else fracDigitsAux v.den (v.num.natAbs % v.den) v.den)

/-- The record `f.write` appends per accepted sample:
value, comma-space, epoch seconds, comma-space, formatted wall clock,
newline — the f-string of the source. -/
def logRecord (v epoch : ℚ) (t : GmTime) : List Char :=
  pyFloatRepr v ++ [',', ' '] ++ pyFloatRepr epoch ++ [',', ' '] ++
    strftime_log t ++ ['\n']

theorem markerIndex_first {s : List Char} {i : Nat}
    (h : markerIndex s = some i) :
    s.get? i = some 'T' ∧ ∀ j, j < i → s.get? j ≠ some 'T' := by
  induction s generalizing i with
  | nil => simp [markerIndex] at h
  | cons c cs ih =>
      by_cases hc : c = 'T'
      · simp [markerIndex, hc] at h
        subst h
        refine ⟨by simp [hc], ?_⟩
        intro j hj
        omega
      · simp [markerIndex, hc] at h
        obtain ⟨i', hi', rfl⟩ := h
        obtain ⟨h1, h2⟩ := ih hi'
        refine ⟨by simpa using h1, ?_⟩
        intro j hj
        match j with
        | 0 => simpa using hc
        | j + 1 =>
            have := h2 j (by omega)
            simpa using this

/-- C3: for every input line whose marker (the first occurrence of the
marker character, which is the one `find` selects) sits at position `i`
and whose field at positions `i + 2` through `i + 8` parses numerically,
the parse succeeds and the sample's value is exactly the parsed number. -/
theorem parse_marker_field_value (s : List Char) (i : Nat) (v : ℚ)
    (hm : markerIndex s = some i)
    (hv : parseFloat (extractField s i) = some v) :
    parseLine s = Except.ok v := by
  simp [parseLine, hm, hv]

/-- C3 witness: the spec scenario, a line carrying the marker followed by
the field 0020.50, parses to the value 20.5. -/
theorem parse_marker_field_value_witness :
    parseLine ['T', ',', '0', '0', '2', '0', '.', '5', '0', '0'] =
      Except.ok ((41 : ℚ) / 2) := by
  apply parse_marker_field_value _ 0
  · decide
  · simp +decide [extractField, parseFloat, parseUnsigned, natOfDigits]
    norm_num

/-- C8: a line without the marker character is rejected with `NoMarker`;
the cycle only performs the file open and the normal inter-cycle sleep,
so no sample is emitted and nothing is written to the log file. -/
theorem no_marker_no_sample_no_write (s : List Char)
    (h : markerIndex s = none) :
    parseLine s = Except.error RejectReason.NoMarker ∧
    cycle (ReadResult.line s) = [Event.fileOpen, Event.sleepShort] ∧
    ∀ v, Event.emit v ∉ cycle (ReadResult.line s) ∧
      Event.write v ∉ cycle (ReadResult.line s) := by
  have hp : parseLine s = Except.error RejectReason.NoMarker := by
    simp [parseLine, h]
  refine ⟨hp, by simp [cycle, hp], ?_⟩
  intro v
  constructor <;> simp [cycle, hp]

/-- C8 witness: a concrete marker-free line is rejected with `NoMarker`
and its cycle performs no emission and no write. -/
theorem no_marker_no_sample_no_write_witness :
    parseLine ['h', 'e', 'l', 'l', 'o'] =
      Except.error RejectReason.NoMarker ∧
    cycle (ReadResult.line ['h', 'e', 'l', 'l', 'o']) =
      [Event.fileOpen, Event.sleepShort] := by
  have h := no_marker_no_sample_no_write ['h', 'e', 'l', 'l', 'o'] (by decide)
  exact ⟨h.1, h.2.1⟩

/-- C10: extraction always uses the first marker occurrence (nothing
before the chosen index is the marker), the field is the clamped slice
holding at most 7 characters (possibly fewer, possibly none), any such
shorter field that parses numerically yields an accepted sample with that
value, and a concrete line ending in the marker, a comma and a single
digit is accepted with that digit's value. -/
theorem parse_first_marker_short_field :
    (∀ s i, markerIndex s = some i →
      s.get? i = some 'T' ∧ (∀ j, j < i → s.get? j ≠ some 'T')) ∧
    (∀ s i, markerIndex s = some i →
      extractField s i = (s.drop (i + 2)).take 7 ∧
        (extractField s i).length ≤ 7) ∧
    (∀ s i v, markerIndex s = some i →
      parseFloat (extractField s i) = some v →
      parseLine s = Except.ok v) ∧
    parseLine ['x', 'x', 'T', ',', '5'] = Except.ok 5 := by
  refine ⟨fun s i h => markerIndex_first h, ?_, ?_, ?_⟩
  · intro s i _
    refine ⟨rfl, ?_⟩
    simp [extractField]
  · intro s i v hm hv
    simp [parseLine, hm, hv]
  · simp +decide [parseLine, markerIndex, extractField, parseFloat,
      parseUnsigned, natOfDigits]

/-- C10 witness: on the concrete line the marker is found at index 2 with
no earlier occurrence, and the one-character field parses to 5. -/
theorem parse_first_marker_short_field_witness :
    ((['x', 'x', 'T', ',', '5'] : List Char).get? 2 = some 'T') ∧
    ((['x', 'x', 'T', ',', '5'] : List Char).get? 0 ≠ some 'T') ∧
    parseLine ['x', 'x', 'T', ',', '5'] = Except.ok 5 := by
  have h := parse_first_marker_short_field
  have h1 := h.1 ['x', 'x', 'T', ',', '5'] 2 (by decide)
  exact ⟨h1.1, h1.2 0 (by decide), h.2.2.2⟩

/-- C1 counterexample: in an accepted cycle the emission happens before
the write (`new_data.emit` on the line above `f.write`), so the sample is
emitted without having been written first: the write-precedes-emit check
fails on the cycle's event list even though a sample is emitted. -/
theorem emit_before_write_counterexample :
    writesPrecedeEmits (cycle (ReadResult.line ['T', ',', '5'])) = false ∧
    Event.emit 5 ∈ cycle (ReadResult.line ['T', ',', '5']) := by
  have hc : cycle (ReadResult.line ['T', ',', '5']) =
      [Event.fileOpen, Event.emit 5, Event.write 5, Event.sleepShort] := by
    simp +decide [cycle, parseLine, markerIndex, extractField, parseFloat,
      parseUnsigned, natOfDigits]
  rw [hc]
  constructor
  · simp +decide [writesPrecedeEmits, writesPrecedeEmitsAux]
  · simp

/-- C1 amended: every emitted sample is also written to the log file in
the same cycle — the cycle of an accepted sample is exactly file open,
emission, write, inter-cycle sleep, so both operations complete before
the next cycle begins, but the emission precedes the write. -/
theorem emit_write_same_cycle (r : ReadResult) (v : ℚ)
    (h : Event.emit v ∈ cycle r) :
    cycle r = [Event.fileOpen, Event.emit v, Event.write v,
      Event.sleepShort] := by
  cases r with
  | ioError => simp [cycle] at h
  | line s =>
      cases hp : parseLine s with
      | ok w =>
          simp [cycle, hp] at h
          subst h
          simp [cycle, hp]
      | error e =>
          cases e <;> simp [cycle, hp] at h

/-- C1 amended witness: on a concrete accepted line the cycle is exactly
open, emit, write, sleep. -/
theorem emit_write_same_cycle_witness :
    cycle (ReadResult.line ['x', 'x', 'T', ',', '5']) =
      [Event.fileOpen, Event.emit 5, Event.write 5, Event.sleepShort] := by
  apply emit_write_same_cycle
  simp +decide [cycle, parseLine, markerIndex, extractField, parseFloat,
    parseUnsigned, natOfDigits]

/-- C5 counterexample: a line with the marker but a non-numeric field
raises inside the `try`, so the cycle lands in the `except Exception`
handler: it performs the 10-second back-off sleep, not the normal
inter-cycle sleep — its observable events coincide with those of a
device I/O error cycle, refuting the claim that a malformed number does
not enter the error back-off path. -/
theorem malformed_backoff_counterexample :
    parseLine ['T', ',', 'z', 'z', 'z'] =
      Except.error RejectReason.MalformedNumber ∧
    cycle (ReadResult.line ['T', ',', 'z', 'z', 'z']) =
      [Event.fileOpen, Event.sleepLong] ∧
    cycle (ReadResult.line ['T', ',', 'z', 'z', 'z']) ≠
      [Event.fileOpen, Event.sleepShort] ∧
    cycle (ReadResult.line ['T', ',', 'z', 'z', 'z']) =
      cycle ReadResult.ioError := by
  have hp : parseLine ['T', ',', 'z', 'z', 'z'] =
      Except.error RejectReason.MalformedNumber := by
    simp +decide [parseLine, markerIndex, extractField, parseFloat,
      parseUnsigned, natOfDigits]
  refine ⟨hp, by simp [cycle, hp], by simp [cycle, hp], by simp [cycle, hp]⟩

/-- C5 amended: a malformed numeric field is never fatal — no sample is
emitted or written for that line and the loop continues with the rest of
its schedule — but the failed parse is handled by the same exception
handler as a device I/O error and incurs the 10-second back-off sleep in
place of the normal cycle sleep. -/
theorem malformed_number_nonfatal (s : List Char)
    (h : parseLine s = Except.error RejectReason.MalformedNumber) :
    cycle (ReadResult.line s) = [Event.fileOpen, Event.sleepLong] ∧
    (∀ v, Event.emit v ∉ cycle (ReadResult.line s) ∧
      Event.write v ∉ cycle (ReadResult.line s)) ∧
    ∀ ms, data_acquire_loop ((true, ReadResult.line s) :: ms) =
      (cycle (ReadResult.line s) ++ (data_acquire_loop ms).1,
        (data_acquire_loop ms).2) := by
  refine ⟨by simp [cycle, h], ?_, ?_⟩
  · intro v
    constructor <;> simp [cycle, h]
  · intro ms
    simp [data_acquire_loop]

/-- C5 amended witness: the concrete malformed line produces the back-off
cycle. -/
theorem malformed_number_nonfatal_witness :
    cycle (ReadResult.line ['T', ',', 'z', 'z', 'z']) =
      [Event.fileOpen, Event.sleepLong] := by
  refine (malformed_number_nonfatal _ ?_).1
  simp +decide [parseLine, markerIndex, extractField, parseFloat,
    parseUnsigned, natOfDigits]

/-- C7: as long as every check of the `measuring` flag reads true the
loop never terminates, and when additionally every read raises an I/O
exception each cycle is exactly a file open followed by the back-off
sleep (retry); the loop reaches its terminated state — file closed and
completion signalled — only on a trace containing a step whose flag
reads false. -/
theorem loop_terminates_only_on_stop (steps : List (Bool × ReadResult)) :
    ((∀ p ∈ steps, p.1 = true) → (data_acquire_loop steps).2 = false) ∧
    ((∀ p ∈ steps, p.1 = true ∧ p.2 = ReadResult.ioError) →
      (data_acquire_loop steps).1 =
        (List.replicate steps.length
          [Event.fileOpen, Event.sleepLong]).flatten) ∧
    ((data_acquire_loop steps).2 = true →
      (∃ p ∈ steps, p.1 = false) ∧
      ∃ pre, (data_acquire_loop steps).1 =
        pre ++ [Event.fileClose, Event.finished]) := by
  induction steps with
  | nil => simp [data_acquire_loop]
  | cons q rest ih =>
      obtain ⟨m, r⟩ := q
      refine ⟨?_, ?_, ?_⟩
      · intro h
        have hm : m = true := h (m, r) (by simp)
        subst hm
        have : (data_acquire_loop rest).2 = false :=
          ih.1 fun p hp => h p (by simp [hp])
        simpa [data_acquire_loop] using this
      · intro h
        obtain ⟨hm, hr⟩ := h (m, r) (by simp)
        subst hm
        subst hr
        have : (data_acquire_loop rest).1 =
            (List.replicate rest.length
              [Event.fileOpen, Event.sleepLong]).flatten :=
          ih.2.1 fun p hp => h p (by simp [hp])
        simp [data_acquire_loop, cycle, List.replicate_succ, this]
      · intro h
        by_cases hm : m = true
        · subst hm
          simp [data_acquire_loop] at h
          obtain ⟨⟨p, hp, hp1⟩, pre, hpre⟩ := ih.2.2 h
          refine ⟨⟨p, by simp [hp], hp1⟩, cycle r ++ pre, ?_⟩
          simp [data_acquire_loop, hpre]
        · replace hm : m = false := by
            cases m
            · rfl
            · exact absurd rfl hm
          subst hm
          refine ⟨⟨(false, r), by simp, rfl⟩, [], ?_⟩
          simp [data_acquire_loop]

/-- C7 witness: two consecutive error cycles under a true flag leave the
loop unterminated with two back-off retries recorded; a false flag
terminates it with the close and completion events. -/
theorem loop_terminates_only_on_stop_witness :
    (data_acquire_loop
      [(true, ReadResult.ioError), (true, ReadResult.ioError)]).2 = false ∧
    (data_acquire_loop
      [(true, ReadResult.ioError), (true, ReadResult.ioError)]).1 =
      [Event.fileOpen, Event.sleepLong, Event.fileOpen, Event.sleepLong] ∧
    data_acquire_loop [(false, ReadResult.ioError)] =
      ([Event.fileClose, Event.finished], true) := by
  have h := loop_terminates_only_on_stop
    [(true, ReadResult.ioError), (true, ReadResult.ioError)]
  refine ⟨h.1 (by simp), ?_, by simp [data_acquire_loop]⟩
  have h2 := h.2.1 (by simp)
  simpa using h2

theorem hist_eq_drop (xs : List ℚ) :
    (hist xs).length = min xs.length 4000 ∧
    hist xs = xs.drop (xs.length - 4000) := by
  induction xs using List.reverseRecOn with
  | nil => simp [hist]
  | append_singleton ys x ih =>
      obtain ⟨ihlen, ihdrop⟩ := ih
      have hstep : hist (ys ++ [x]) = update_chart (hist ys) x := by
        simp [hist, List.foldl_append]
      by_cases hlen : ys.length < 4000
      · have h0 : ys.length - 4000 = 0 := by omega
        have hys : hist ys = ys := by simpa [h0] using ihdrop
        have hne : (hist ys).length ≠ 4000 := by omega
        have h1 : (ys ++ [x]).length - 4000 = 0 := by
          simp
          omega
        rw [hstep, update_chart, if_neg hne, hys, h1]
        constructor
        · simp
          omega
        · simp
      · have hcap : (hist ys).length = 4000 := by omega
        have hlt : ys.length + 1 - 4000 ≤ ys.length := by omega
        have hidx : (ys ++ [x]).length - 4000 = ys.length + 1 - 4000 := by
          simp
        rw [hstep, update_chart, if_pos hcap, ihdrop, hidx,
          List.drop_append_of_le_length hlt, List.tail_drop]
        constructor
        · simp
          omega
        · have h2 : ys.length - 4000 + 1 = ys.length + 1 - 4000 := by omega
          rw [h2]

/-- C2: starting from the empty buffer, after any sequence of pushes the
buffer length is the minimum of the push count and 4000, the buffer is
exactly the suffix of the push sequence starting at index
push count - 4000 (so chronological FIFO order is preserved, and once the
count exceeds 4000 the oldest retained sample is the
push count - 4000 + 1 -th pushed one), and a push against a full buffer
first evicts the oldest entry and then appends the new one. -/
theorem update_chart_bounded_fifo (xs : List ℚ) :
    (hist xs).length = min xs.length 4000 ∧
    hist xs = xs.drop (xs.length - 4000) ∧
    ∀ buf : List ℚ, ∀ x : ℚ, buf.length = 4000 →
      update_chart buf x = buf.tail ++ [x] := by
  refine ⟨(hist_eq_drop xs).1, (hist_eq_drop xs).2, ?_⟩
  intro buf x h
  simp [update_chart, h]

/-- C2 witness: pushing 4001 equal values retains the last 4000, and a
push against a full buffer drops the head and appends the new value. -/
theorem update_chart_bounded_fifo_witness :
    hist (List.replicate 4001 (0 : ℚ)) = List.replicate 4000 (0 : ℚ) ∧
    update_chart (List.replicate 4000 (0 : ℚ)) 1 =
      List.replicate 3999 (0 : ℚ) ++ [1] := by
  have e1 : List.replicate 4001 (0 : ℚ) = 0 :: List.replicate 4000 0 :=
    List.replicate_succ ..
  have e2 : List.replicate 4000 (0 : ℚ) = 0 :: List.replicate 3999 0 :=
    List.replicate_succ ..
  constructor
  · have h := (update_chart_bounded_fifo (List.replicate 4001 (0 : ℚ))).2.1
    rw [h, List.length_replicate, e1]
    norm_num
  · have h := (update_chart_bounded_fifo []).2.2
      (List.replicate 4000 (0 : ℚ)) 1 (List.length_replicate ..)
    rw [h, e2]
    rfl

theorem sum_sq_expand (ys : List ℚ) (m : ℚ) :
    (ys.map (fun y => (y - m) ^ 2)).sum =
      (ys.map (fun y => y ^ 2)).sum - 2 * m * ys.sum +
        (ys.length : ℚ) * m ^ 2 := by
  induction ys with
  | nil => simp
  | cons a l ih =>
      simp [ih]
      ring

/-- C4 counterexample: with exactly two samples in the buffer the source
does not report a standard deviation at all (the guard is a strict
greater-than-two comparison), although the claim requires the
Bessel-corrected value to be reported for every buffer of two or more
samples. -/
theorem stdev_two_samples_counterexample :
    stdev_report [(20 : ℚ), 21] = none ∧
    2 ≤ ([(20 : ℚ), 21]).length := by
  constructor
  · simp [stdev_report]
  · simp

/-- C4 amended: the standard deviation is reported exactly when the
buffer holds at least three samples (so it is never reported as zero for
zero, one or two samples), and when reported its square is the
Bessel-corrected sample variance over the whole buffer, characterised by
the algebraic identity against the raw sums. -/
theorem stdev_report_bessel (ys : List ℚ) :
    (stdev_report ys = none ↔ ys.length ≤ 2) ∧
    (3 ≤ ys.length →
      stdev_report ys = some (sampleVariance ys) ∧
      sampleVariance ys * ((ys.length : ℚ) * ((ys.length : ℚ) - 1)) =
        (ys.length : ℚ) * (ys.map (fun y => y ^ 2)).sum - ys.sum ^ 2) := by
  constructor
  · constructor
    · intro h
      by_contra hlen
      have h2 : 2 < ys.length := by omega
      simp [stdev_report, h2] at h
    · intro h
      have h2 : ¬ 2 < ys.length := by omega
      simp [stdev_report, h2]
  · intro h
    have h2 : 2 < ys.length := by omega
    refine ⟨by simp [stdev_report, h2], ?_⟩
    have h3 : (3 : ℚ) ≤ (ys.length : ℚ) := by exact_mod_cast h
    have hn : ((ys.length : ℚ)) ≠ 0 := by linarith
    have hn1 : ((ys.length : ℚ)) - 1 ≠ 0 := by
      intro hq
      have : ((ys.length : ℚ)) = 1 := by linarith
      linarith
    rw [sampleVariance, sum_sq_expand]
    field_simp
    ring

/-- C4 amended witness: the spec scenario values 20, 20.5, 21 yield a
reported variance of one quarter, the square of the 0.5 standard
deviation. -/
theorem stdev_report_bessel_witness :
    stdev_report [(20 : ℚ), 41 / 2, 21] = some ((1 : ℚ) / 4) := by
  have h := (stdev_report_bessel [(20 : ℚ), 41 / 2, 21]).2 (by simp)
  rw [h.1]
  norm_num [sampleVariance]

/-- C6 counterexample: pressing the acquire control while a session is
active does not fail with a precondition error — it stops the active
session (the control is a toggle), so the outcome is the stop transition
and the measuring flag is cleared. -/
theorem double_start_counterexample :
    (acquire_data ⟨true, true, ['l', 'o', 'g', 's']⟩).2 =
      AcquireOutcome.stopped ∧
    (acquire_data ⟨true, true, ['l', 'o', 'g', 's']⟩).2 ≠
      AcquireOutcome.noSerial ∧
    (acquire_data ⟨true, true, ['l', 'o', 'g', 's']⟩).2 ≠
      AcquireOutcome.noFolder ∧
    (acquire_data ⟨true, true, ['l', 'o', 'g', 's']⟩).1.measuring =
      false := by
  refine ⟨rfl, by decide, by decide, rfl⟩

/-- C6 amended: invoking the acquire control while a session is active
never starts a second acquisition — it acts as the stop command, clearing
the measuring flag — and an acquisition only ever starts from a state in
which no session is active, so at most one session is active at a time. -/
theorem acquire_data_while_active (st : UiState)
    (h : st.measuring = true) :
    (acquire_data st).2 = AcquireOutcome.stopped ∧
    (acquire_data st).2 ≠ AcquireOutcome.started ∧
    (acquire_data st).1.measuring = false ∧
    ∀ st2 : UiState, (acquire_data st2).2 = AcquireOutcome.started →
      st2.measuring = false := by
  refine ⟨by simp [acquire_data, h], by simp [acquire_data, h],
    by simp [acquire_data, h], ?_⟩
  intro st2 h2
  cases hb : st2.measuring with
  | false => rfl
  | true => simp [acquire_data, hb] at h2

/-- C6 amended witness: from a concrete active state the control stops
the session. -/
theorem acquire_data_while_active_witness :
    (acquire_data ⟨true, true, ['d', 'a', 't', 'a']⟩).2 =
      AcquireOutcome.stopped := by
  exact (acquire_data_while_active _ rfl).1

theorem digitChar_isDigit {n : Nat} (h : n < 10) :
    (Nat.digitChar n).isDigit = true := by
  interval_cases n <;> decide

theorem pad2_isDigit (n : Nat) : ∀ c ∈ pad2 n, c.isDigit = true := by
  intro c hc
  simp [pad2] at hc
  rcases hc with h | h <;> subst h <;>
    exact digitChar_isDigit (Nat.mod_lt _ (by norm_num))

theorem pad4_isDigit (n : Nat) : ∀ c ∈ pad4 n, c.isDigit = true := by
  intro c hc
  simp [pad4] at hc
  rcases hc with h | h | h | h <;> subst h <;>
    exact digitChar_isDigit (Nat.mod_lt _ (by norm_num))

theorem natDigitsAux_isDigit :
    ∀ fuel n, ∀ c ∈ natDigitsAux fuel n, c.isDigit = true := by
  intro fuel
  induction fuel with
  | zero => intro n c hc; simp [natDigitsAux] at hc
  | succ f ih =>
      intro n c hc
      by_cases h : n < 10
      · simp [natDigitsAux, h] at hc
        subst hc
        exact digitChar_isDigit h
      · simp [natDigitsAux, h] at hc
        rcases hc with h1 | h1
        · exact ih _ _ h1
        · subst h1
          exact digitChar_isDigit (Nat.mod_lt _ (by norm_num))

theorem fracDigitsAux_isDigit :
    ∀ fuel num den, 0 < den → num < den →
      ∀ c ∈ fracDigitsAux fuel num den, c.isDigit = true := by
  intro fuel
  induction fuel with
  | zero => intro num den _ _ c hc; simp [fracDigitsAux] at hc
  | succ f ih =>
      intro num den hden hlt c hc
      by_cases h0 : num = 0
      · simp [fracDigitsAux, h0] at hc
      · simp [fracDigitsAux, h0] at hc
        rcases hc with h1 | h1
        · subst h1
          apply digitChar_isDigit
          rw [Nat.div_lt_iff_lt_mul hden]
          omega
        · exact ih _ _ hden (Nat.mod_lt _ hden) c h1

theorem pyFloatRepr_chars (v : ℚ) :
    ∀ c ∈ pyFloatRepr v, c.isDigit = true ∨ c = '.' ∨ c = '-' := by
  intro c hc
  by_cases hv : v < 0 <;> by_cases hr : v.num.natAbs % v.den = 0 <;>
    simp [pyFloatRepr, hv, hr] at hc
  · rcases hc with h | h | h | h
    · right; right; exact h
    · left; exact natDigitsAux_isDigit _ _ c h
    · right; left; exact h
    · subst h; left; decide
  · rcases hc with h | h | h | h
    · right; right; exact h
    · left; exact natDigitsAux_isDigit _ _ c h
    · right; left; exact h
    · left
      exact fracDigitsAux_isDigit _ _ _ v.pos (Nat.mod_lt _ v.pos) c h
  · rcases hc with h | h | h
    · left; exact natDigitsAux_isDigit _ _ c h
    · right; left; exact h
    · subst h; left; decide
  · rcases hc with h | h | h
    · left; exact natDigitsAux_isDigit _ _ c h
    · right; left; exact h
    · left
      exact fracDigitsAux_isDigit _ _ _ v.pos (Nat.mod_lt _ v.pos) c h

theorem isDigit_ne_comma_newline {c : Char} (h : c.isDigit = true) :
    c ≠ ',' ∧ c ≠ '\n' := by
  constructor <;> rintro rfl <;> exact absurd h (by decide)

theorem pyFloatRepr_no_comma_newline (v : ℚ) :
    ∀ c ∈ pyFloatRepr v, c ≠ ',' ∧ c ≠ '\n' := by
  intro c hc
  rcases pyFloatRepr_chars v c hc with h | h | h
  · exact isDigit_ne_comma_newline h
  · subst h; constructor <;> decide
  · subst h; constructor <;> decide

theorem strftime_log_no_comma_newline (t : GmTime) :
    ∀ c ∈ strftime_log t, c ≠ ',' ∧ c ≠ '\n' := by
  have key : ∀ n : Nat, ∀ c ∈ pad2 n, c ≠ ',' ∧ c ≠ '\n' :=
    fun n c h => isDigit_ne_comma_newline (pad2_isDigit n c h)
  have key4 : ∀ c ∈ pad4 t.year, c ≠ ',' ∧ c ≠ '\n' :=
    fun c h => isDigit_ne_comma_newline (pad4_isDigit _ c h)
  simp only [strftime_log, List.forall_mem_append, List.forall_mem_cons]
  exact ⟨key _, by decide, key _, by decide, key4, by decide, key _,
    by decide, key _, by decide, key _, by decide, by decide, by decide,
    by decide, by decide, by decide, by simp⟩

theorem strftime_log_length (t : GmTime) : (strftime_log t).length = 25 := by
  simp [strftime_log, pad2, pad4]

theorem logRecord_getLast (v e : ℚ) (t : GmTime) :
    (logRecord v e t).getLast? = some '\n' := by
  rw [logRecord]
  exact List.getLast?_concat _

theorem logRecord_count_newline (v e : ℚ) (t : GmTime) :
    (logRecord v e t).count '\n' = 1 := by
  have h1 : '\n' ∉ pyFloatRepr v :=
    fun h => ((pyFloatRepr_no_comma_newline v) _ h).2 rfl
  have h2 : '\n' ∉ pyFloatRepr e :=
    fun h => ((pyFloatRepr_no_comma_newline e) _ h).2 rfl
  have h3 : '\n' ∉ strftime_log t :=
    fun h => ((strftime_log_no_comma_newline t) _ h).2 rfl
  simp [logRecord, List.count_append, List.count_eq_zero.2 h1,
    List.count_eq_zero.2 h2, List.count_eq_zero.2 h3]

/-- C9: every record appended for an accepted sample is a single line
with a trailing newline (exactly one newline, at the end), made of three
comma-separated fields none of which contains a comma or newline: the
value in its decimal rendering, the epoch-seconds timestamp, and the wall
clock formatted as two-digit day, slash, two-digit month, slash,
four-digit year, space, two-digit hour, colon, minute, colon, second,
then the literal UTC offset suffix, over `gmtime` fields. -/
theorem log_record_format (v e : ℚ) (t : GmTime) :
    logRecord v e t =
      pyFloatRepr v ++ [',', ' '] ++ pyFloatRepr e ++ [',', ' '] ++
        strftime_log t ++ ['\n'] ∧
    (logRecord v e t).getLast? = some '\n' ∧
    (logRecord v e t).count '\n' = 1 ∧
    (∀ c ∈ pyFloatRepr v, c ≠ ',' ∧ c ≠ '\n') ∧
    (∀ c ∈ pyFloatRepr e, c ≠ ',' ∧ c ≠ '\n') ∧
    (∀ c ∈ strftime_log t, c ≠ ',' ∧ c ≠ '\n') ∧
    (strftime_log t).length = 25 ∧
    ∃ dd mm yy hh mi ss : List Char,
      strftime_log t =
        dd ++ '/' :: (mm ++ '/' :: (yy ++ ' ' :: (hh ++ ':' :: (mi ++
          ':' :: (ss ++ [' ', '+', '0', '0', '0', '0']))))) ∧
      dd.length = 2 ∧ mm.length = 2 ∧ yy.length = 4 ∧ hh.length = 2 ∧
      mi.length = 2 ∧ ss.length = 2 ∧
      ∀ c ∈ dd ++ mm ++ yy ++ hh ++ mi ++ ss, c.isDigit = true := by
  refine ⟨rfl, logRecord_getLast v e t, logRecord_count_newline v e t,
    pyFloatRepr_no_comma_newline v, pyFloatRepr_no_comma_newline e,
    strftime_log_no_comma_newline t, strftime_log_length t,
    pad2 t.day, pad2 t.month, pad4 t.year, pad2 t.hour, pad2 t.minute,
    pad2 t.second, rfl, rfl, rfl, rfl, rfl, rfl, rfl, ?_⟩
  intro c hc
  simp only [List.mem_append] at hc
  rcases hc with ((((h | h) | h) | h) | h) | h
  · exact pad2_isDigit _ c h
  · exact pad2_isDigit _ c h
  · exact pad4_isDigit _ c h
  · exact pad2_isDigit _ c h
  · exact pad2_isDigit _ c h
  · exact pad2_isDigit _ c h
